import Mathlib

/-!
Shallow embedding of the polling/mention-ingestion logic of the
`base-twitter-adaptor` package (`src/TwitterService.ts`) and of the
`retryWithBackoff` helper, together with theorems settling the frozen
claims about the natural-language specification of that code.

Modelling conventions:
* JavaScript `undefined`-able string fields are `Option String`; the
  truthiness test `if (x)` on such a field is `strTruthy`.
* The JS expression `x || d` on a string-or-undefined `x` is `jsOrStr`
  (an empty string is falsy, so it also falls back to the default).
* The Twitter API client is an external collaborator: each operation
  takes the outcome the client would produce (`Except JsError _`),
  and the search call is a function of the `since_id` parameter so
  that the parameter actually sent is visible in the definitions.
* Thrown JS errors are `JsError`, keeping the fields the code
  inspects: `error?.data?.status` and the `x-rate-limit-reset` header.
* The JS `Map` of threads is an insertion-ordered association list.
-/

/-- Truthiness of a JS string-or-undefined value: `undefined` and the
empty string are falsy. -/
def strTruthy : Option String → Bool
  | some s => s ≠ ""
  | none => false

/-- The JS expression `x || d` where `x : string | undefined` and `d` is a
string: returns `x` when truthy, otherwise `d`. -/
def jsOrStr (x : Option String) (d : String) : String :=
  match x with
  | some s => if s = "" then d else s
  | none => d

/-- The JS expression `x || y` where both sides are `string | undefined`. -/
def jsOrOpt (x y : Option String) : Option String :=
  match x with
  | some s => if s = "" then y else some s
  | none => y

/-- A structured error thrown by the platform client, keeping exactly the
fields the code inspects: `error?.data?.status` (rate-limit marker 429)
and the `x-rate-limit-reset` header (seconds). `tag` carries identity so
that "the original error is re-raised unchanged" is expressible. -/
structure JsError where
  status : Option Nat
  resetTime : Option Int
  tag : Nat
deriving Repr, DecidableEq

/-- Result of the `users/me` identity lookup. -/
structure UserInfo where
  id : String
  username : String
deriving Repr, DecidableEq

/-- A raw record of the search response; every field may be absent at
runtime. -/
structure RawTweet where
  id : Option String
  text : Option String
  conversation_id : Option String
  author_id : Option String
  created_at : Option String
deriving Repr, DecidableEq

/-- The normalized tweet built by `pollForMentions` (the `TweetV2` value
passed to `handleMention`): `text`/`author_id`/`created_at` are defaulted
strings, `id` passes through unmodified, `conversation_id` is
`tweet.conversation_id || tweet.id`. -/
structure TweetV2 where
  id : Option String
  text : String
  conversation_id : Option String
  author_id : String
  created_at : String
deriving Repr, DecidableEq

/-- Payload of a `newMention` event. -/
structure MentionEvent where
  message : String
  threadId : String
  userId : String
  tweetId : String
deriving Repr, DecidableEq

/-- Events published on the service's emitter. `tweetError` carries a
tweet id only when emitted from `replyToTweet`. -/
inductive Event where
  | newMention (e : MentionEvent)
  | rateLimitWarning (tweetId : String) (message : String) (error : JsError)
  | pollError (error : JsError)
  | tweetError (tweetId : Option String) (message : String) (error : JsError)
deriving Repr, DecidableEq

/-- A message stored in a thread's history. -/
structure Message where
  senderId : String
  timestamp : Nat
  content : String
deriving Repr, DecidableEq

/-- The `threads` JS `Map`, as an insertion-ordered association list from
thread id to history. -/
abbrev ThreadsMap := List (String × List Message)

/-- History of a thread (`[]` when the thread does not exist yet),
matching `getThreadContext`'s view of the map. -/
def getThreadHistory : ThreadsMap → String → List Message
  | [], _ => []
  | (k, v) :: rest, threadId =>
    if k = threadId then v else getThreadHistory rest threadId

/-- Replace the history of `threadId` in the map, inserting the entry at
the end when absent (JS `Map.set` insertion order). -/
def setThread : ThreadsMap → String → List Message → ThreadsMap
  | [], threadId, h => [(threadId, h)]
  | (k, v) :: rest, threadId, h =>
    if k = threadId then (threadId, h) :: rest
    else (k, v) :: setThread rest threadId h

/-- The trimming step of `addMessageToThread`:
`if (limit && history.length > limit) history = history.slice(-limit)`.
A limit of `0` is falsy in JS, so no trimming happens then. -/
def trimHistory (limit : Nat) (h : List Message) : List Message :=
  if limit ≠ 0 ∧ limit < h.length then h.drop (h.length - limit) else h

/-- `addMessageToThread(threadId, message)`: get-or-create the thread,
push the message, then apply the history limit. -/
def addMessageToThread (limit : Nat) (threads : ThreadsMap)
    (threadId : String) (m : Message) : ThreadsMap :=
  setThread threads threadId
    (trimHistory limit (getThreadHistory threads threadId ++ [m]))

/-- Sequentially append a list of messages to one thread. -/
def appendAll (limit : Nat) (threads : ThreadsMap) (threadId : String) :
    List Message → ThreadsMap
  | [] => threads
  | m :: ms => appendAll limit (addMessageToThread limit threads threadId m) threadId ms

/-- `TwitterServiceConfig` as passed to the constructor (only the fields
the modelled logic reads). -/
structure TwitterServiceConfig where
  sinceId : Option String
  threadHistoryLimit : Option Nat
  pollIntervalMs : Option Nat
  includeOwnTweets : Bool
deriving Repr, DecidableEq

/-- The config after the constructor fills defaults
(`threadHistoryLimit ?? 50`, `pollIntervalMs ?? 60000`). -/
structure ResolvedConfig where
  sinceId : Option String
  threadHistoryLimit : Nat
  pollIntervalMs : Nat
  includeOwnTweets : Bool
deriving Repr, DecidableEq

/-- Default-filling performed by the `TwitterService` constructor. -/
def resolveConfig (c : TwitterServiceConfig) : ResolvedConfig :=
  { sinceId := c.sinceId
  , threadHistoryLimit := c.threadHistoryLimit.getD 50
  , pollIntervalMs := c.pollIntervalMs.getD 60000
  , includeOwnTweets := c.includeOwnTweets }

/-- Mutable state of a `TwitterService` instance. `listeners` stands for
the emitter's registered subscribers (opaque tokens); `pollTimerArmed`
for whether `pollInterval` holds a live timer. -/
structure ServiceState where
  config : ResolvedConfig
  threads : ThreadsMap
  lastMentionId : Option String
  currentUserId : Option String
  currentUsername : Option String
  pollTimerArmed : Bool
  listeners : List Nat
deriving Repr, DecidableEq

/-- The `TwitterService` constructor: resolves config defaults, starts
with empty threads, and seeds `lastMentionId` from `config.sinceId`. -/
def mkService (c : TwitterServiceConfig) : ServiceState :=
  { config := resolveConfig c
  , threads := []
  , lastMentionId := c.sinceId
  , currentUserId := none
  , currentUsername := none
  , pollTimerArmed := false
  , listeners := [] }

/-- `emitter.on(...)`: registers a subscriber. -/
def onEvent (s : ServiceState) (l : Nat) : ServiceState :=
  { s with listeners := s.listeners ++ [l] }

/-- The `since_id` search parameter chosen by `pollForMentions`:
the tracked cursor when truthy, else the configured seed when truthy and
not the sentinel `"0"`, else omitted. -/
def sinceIdParam (s : ServiceState) : Option String :=
  if strTruthy s.lastMentionId = true then s.lastMentionId
  else if strTruthy s.config.sinceId = true ∧ s.config.sinceId ≠ some "0" then
    s.config.sinceId
  else none

/-- Caching of `users/me` results into the service state. -/
def resolveIdentity (s : ServiceState) (u : UserInfo) : ServiceState :=
  { s with currentUserId := some u.id, currentUsername := some u.username }

/-- Normalization of a raw record into the `TweetV2` handed to
`handleMention` (current time supplied as `nowIso`). -/
def normalizeTweet (t : RawTweet) (nowIso : String) : TweetV2 :=
  { id := t.id
  , text := jsOrStr t.text ""
  , conversation_id := jsOrOpt t.conversation_id t.id
  , author_id := jsOrStr t.author_id ""
  , created_at := jsOrStr t.created_at nowIso }

/-- `handleMention`: drops a tweet whose id is falsy; otherwise builds the
mention event, appends to the thread history, and publishes `newMention`. -/
def handleMention (s : ServiceState) (nowMs : Nat) (td : TweetV2) :
    ServiceState × List Event :=
  match td.id with
  | none => (s, [])
  | some i =>
    if i = "" then (s, [])
    else
      let ev : MentionEvent :=
        { message := td.text
        , threadId := jsOrStr td.conversation_id i
        , userId := if td.author_id = "" then "unknown" else td.author_id
        , tweetId := i }
      let threads' := addMessageToThread s.config.threadHistoryLimit
        s.threads ev.threadId ⟨ev.userId, nowMs, ev.message⟩
      ({ s with threads := threads' }, [Event.newMention ev])

/-- The per-mention loop of `pollForMentions` over the (already reversed)
batch: skip own tweets unless configured otherwise, normalize, handle. -/
def processMentions (s : ServiceState) (nowIso : String) (nowMs : Nat) :
    List RawTweet → ServiceState × List Event
  | [] => (s, [])
  | t :: rest =>
    if t.author_id = s.currentUserId ∧ s.config.includeOwnTweets = false then
      processMentions s nowIso nowMs rest
    else
      let step := handleMention s nowMs (normalizeTweet t nowIso)
      let res := processMentions step.1 nowIso nowMs rest
      (res.1, step.2 ++ res.2)

/-- The single event published by `pollForMentions`' catch block. -/
def catchEvent (e : JsError) : Event :=
  if e.status = some 429 then Event.rateLimitWarning "" "" e
  else Event.pollError e

/-- The part of `pollForMentions` after identity resolution: build the
search parameters, issue the search, and either bail out (no data /
empty), advance the cursor and process the batch, or catch the thrown
error. `search` maps the `since_id` parameter actually sent to the
outcome of the search call (`none` models a response carrying no
`data.data`). -/
def pollWithIdentity (s1 : ServiceState)
    (search : Option String → Except JsError (Option (List RawTweet)))
    (nowIso : String) (nowMs : Nat) : ServiceState × List Event :=
  match search (sinceIdParam s1) with
  | Except.error e => (s1, [catchEvent e])
  | Except.ok none => (s1, [])
  | Except.ok (some tweets) =>
    match tweets with
    | [] => (s1, [])
    | t :: rest =>
      processMentions { s1 with lastMentionId := t.id } nowIso nowMs
        ((t :: rest).reverse)

/-- One polling pass. `whoAmI` is the outcome the `users/me` lookup would
produce (consulted only when the cached username is falsy). Exceptions
are contained: every run returns a state/event pair. -/
def pollForMentions (s : ServiceState) (whoAmI : Except JsError UserInfo)
    (search : Option String → Except JsError (Option (List RawTweet)))
    (nowIso : String) (nowMs : Nat) : ServiceState × List Event :=
  match (if strTruthy s.currentUsername = true then Except.ok s
         else whoAmI.map (resolveIdentity s)) with
  | Except.error e => (s, [catchEvent e])
  | Except.ok s1 => pollWithIdentity s1 search nowIso nowMs

/-- `start()`: resolve identity (fatal on failure — re-thrown, timer never
armed), run one synchronous poll pass, then arm the timer. -/
def start (s : ServiceState) (whoAmI : Except JsError UserInfo)
    (search : Option String → Except JsError (Option (List RawTweet)))
    (nowIso : String) (nowMs : Nat) :
    Except JsError (ServiceState × List Event) :=
  match whoAmI with
  | Except.error e => Except.error e
  | Except.ok u =>
    let s1 := resolveIdentity s u
    let r := pollForMentions s1 whoAmI search nowIso nowMs
    Except.ok ({ r.1 with pollTimerArmed := true }, r.2)

/-- `stop()`: cancel the timer, remove all listeners, clear all thread
histories. Nothing else is touched. -/
def stop (s : ServiceState) : ServiceState :=
  { s with pollTimerArmed := false, listeners := [], threads := [] }

/-- `replyToTweet(tweetId, message)` given the outcome of the reply write:
on 429 publish `rateLimitWarning` with the real tweet id and message and
re-raise; on other failure publish `tweetError` and re-raise; on success
return the platform response unmodified. -/
def replyToTweet {α : Type} (tweetId message : String)
    (apiResult : Except JsError α) : Except JsError α × List Event :=
  match apiResult with
  | Except.ok r => (Except.ok r, [])
  | Except.error e =>
    if e.status = some 429 then
      (Except.error e, [Event.rateLimitWarning tweetId message e])
    else
      (Except.error e, [Event.tweetError (some tweetId) message e])

/-- `tweet(text)` given the outcome of the post: same classification as
`replyToTweet`, but the rate-limit event carries an empty tweet id and
the `tweetError` event carries no tweet id. -/
def tweet {α : Type} (text : String) (apiResult : Except JsError α) :
    Except JsError α × List Event :=
  match apiResult with
  | Except.ok r => (Except.ok r, [])
  | Except.error e =>
    if e.status = some 429 then
      (Except.error e, [Event.rateLimitWarning "" text e])
    else
      (Except.error e, [Event.tweetError none text e])

/-- `searchTweets(query)`: logs and re-raises on failure; publishes no
event in any case. -/
def searchTweets {α : Type} (query : String)
    (apiResult : Except JsError α) : Except JsError α × List Event :=
  (apiResult, [])

/-- `getMyProfile()`: logs and re-raises on failure; publishes no event
in any case. -/
def getMyProfile {α : Type} (apiResult : Except JsError α) :
    Except JsError α × List Event :=
  (apiResult, [])

/-- Wait in milliseconds chosen by `retryWithBackoff` before retry number
`retries`: reset-header seconds converted to milliseconds-until-reset
plus a 5000 ms margin when supplied, else `baseDelay * 2 ^ retries`. -/
def rateLimitWaitMs (e : JsError) (nowMs : Int) (baseDelay retries : Nat) : Int :=
  match e.resetTime with
  | some r => r * 1000 - nowMs + 5000
  | none => (baseDelay * 2 ^ retries : Nat)

/-- The `while (true)` loop of `retryWithBackoff`. `op n` is the outcome
of attempt `n`; `nowAt n` is `Date.now()` when retry `n` is being
scheduled. `remaining` is `maxRetries - retries`, so the guard
`retries < maxRetries` is `remaining ≠ 0`. Returns the final outcome and
the list of waits performed. -/
def retryAux {α : Type} (op : Nat → Except JsError α) (nowAt : Nat → Int)
    (baseDelay : Nat) : Nat → Nat → Except JsError α × List Int
  | retries, remaining =>
    match op retries with
    | Except.ok v => (Except.ok v, [])
    | Except.error e =>
      if e.status = some 429 then
        match remaining with
        | 0 => (Except.error e, [])
        | r + 1 =>
          let w := rateLimitWaitMs e (nowAt retries) baseDelay retries
          let res := retryAux op nowAt baseDelay (retries + 1) r
          (res.1, w :: res.2)
      else (Except.error e, [])
  termination_by _ remaining => remaining

/-- `retryWithBackoff(operation, maxRetries, baseDelay)`. -/
def retryWithBackoff {α : Type} (op : Nat → Except JsError α)
    (nowAt : Nat → Int) (maxRetries baseDelay : Nat) :
    Except JsError α × List Int :=
  retryAux op nowAt baseDelay 0 maxRetries

/-- The fields of the service state other than `threads` — everything a
per-mention step leaves untouched — bundled for frame reasoning. -/
def stateMeta (a : ServiceState) :
    ResolvedConfig × Option String × Option String × Option String ×
      Bool × List Nat :=
  (a.config, a.lastMentionId, a.currentUserId, a.currentUsername,
    a.pollTimerArmed, a.listeners)

/-- The mention event `handleMention` emits for a normalized tweet
(`none` when the tweet id is falsy and the record is dropped). -/
def eventOfTweetV2 (td : TweetV2) : Option MentionEvent :=
  match td.id with
  | none => none
  | some i =>
    if i = "" then none
    else some
      { message := td.text
      , threadId := jsOrStr td.conversation_id i
      , userId := if td.author_id = "" then "unknown" else td.author_id
      , tweetId := i }

/-- The mention event a raw record contributes during a poll pass:
`none` when the record is skipped as the service's own tweet or dropped
for a falsy id. -/
def eventForTweet (s : ServiceState) (nowIso : String) (t : RawTweet) :
    Option MentionEvent :=
  if t.author_id = s.currentUserId ∧ s.config.includeOwnTweets = false then
    none
  else eventOfTweetV2 (normalizeTweet t nowIso)

/-- The 51 messages of spec Scenario C: message `i` has timestamp and
content `i` for `i = 1, ..., n`. -/
def scenarioMessages (n : Nat) : List Message :=
  (List.range n).map (fun i => ⟨"user", i + 1, toString (i + 1)⟩)

/-- A service state with identity already resolved, used to instantiate
the poll-pass theorems at concrete inputs. -/
def sampleState : ServiceState :=
  { mkService ⟨none, none, none, false⟩ with
      currentUserId := some "u1", currentUsername := some "bot" }

/-- The newest-first batch of spec Scenario A. -/
def scenarioBatch : List RawTweet :=
  [⟨some "3", none, none, none, none⟩,
   ⟨some "2", none, none, none, none⟩,
   ⟨some "1", none, none, none, none⟩]

/-- A search collaborator returning Scenario A's batch for every
parameter. -/
def scenarioSearch : Option String → Except JsError (Option (List RawTweet)) :=
  fun _ => Except.ok (some scenarioBatch)

/-- The events a poll over Scenario A's batch publishes: oldest first. -/
def scenarioEvents : List Event :=
  [Event.newMention ⟨"", "1", "unknown", "1"⟩,
   Event.newMention ⟨"", "2", "unknown", "2"⟩,
   Event.newMention ⟨"", "3", "unknown", "3"⟩]

/-- The state reached by polling `sampleState` over Scenario A's batch:
cursor advanced to `"3"`, one single-message thread per mention. -/
def scenarioResultState : ServiceState :=
  { sampleState with
      lastMentionId := some "3"
      threads := [("1", [⟨"unknown", 99, ""⟩]),
                  ("2", [⟨"unknown", 99, ""⟩]),
                  ("3", [⟨"unknown", 99, ""⟩])] }

/-- A rate-limit-marked error (`error.data.status === 429`). -/
def err429 : JsError := ⟨some 429, none, 7⟩

/-- A generic (non-rate-limit) error. -/
def errGeneric : JsError := ⟨some 500, none, 8⟩

/-! ### Thread-store lemmas -/

theorem getThreadHistory_setThread_self (threads : ThreadsMap) (tid : String)
    (h : List Message) : getThreadHistory (setThread threads tid h) tid = h := by
  induction threads with
  | nil => simp [setThread, getThreadHistory]
  | cons p rest ih =>
    obtain ⟨k, v⟩ := p
    by_cases hk : k = tid
    · simp [setThread, hk, getThreadHistory]
    · simp [setThread, hk, getThreadHistory, ih]

theorem trimHistory_eq_rtake (limit : Nat) (hpos : 0 < limit)
    (h : List Message) : trimHistory limit h = h.rtake limit := by
  unfold trimHistory List.rtake
  have hne : limit ≠ 0 := by omega
  by_cases hlen : limit < h.length
  · simp [hlen, hne]
  · have hz : h.length - limit = 0 := by omega
    simp [hlen, hz]

theorem rtake_append_rtake {α : Type} (n : Nat) (l b : List α) :
    ((l.rtake n) ++ b).rtake n = (l ++ b).rtake n := by
  simp only [List.rtake_eq_reverse_take_reverse, List.reverse_append,
    List.reverse_reverse]
  rw [List.take_append_eq_append_take, List.take_append_eq_append_take,
    List.take_take, Nat.min_eq_left (Nat.sub_le n b.reverse.length)]

theorem length_rtake_le {α : Type} (n : Nat) (l : List α) :
    (l.rtake n).length ≤ n := by
  unfold List.rtake
  simp only [List.length_drop]
  omega

theorem addMessageToThread_history (limit : Nat) (hpos : 0 < limit)
    (threads : ThreadsMap) (tid : String) (m : Message) :
    getThreadHistory (addMessageToThread limit threads tid m) tid
      = (getThreadHistory threads tid ++ [m]).rtake limit := by
  unfold addMessageToThread
  rw [getThreadHistory_setThread_self, trimHistory_eq_rtake limit hpos]

theorem appendAll_history (limit : Nat) (hpos : 0 < limit) (tid : String)
    (msgs : List Message) :
    ∀ (threads : ThreadsMap), msgs ≠ [] →
      getThreadHistory (appendAll limit threads tid msgs) tid
        = (getThreadHistory threads tid ++ msgs).rtake limit := by
  induction msgs with
  | nil => intro threads hne; exact absurd rfl hne
  | cons m ms ih =>
    intro threads _
    by_cases hms : ms = []
    · subst hms
      simp only [appendAll]
      rw [addMessageToThread_history limit hpos]
    · have hrec := ih (addMessageToThread limit threads tid m) hms
      simp only [appendAll]
      rw [hrec, addMessageToThread_history limit hpos, rtake_append_rtake]
      simp


/-- **C3.** For every positive configured `threadHistoryLimit`: each
`addMessageToThread` leaves the thread's history equal to the last
`limit` elements of old-history-plus-new-message (strictly FIFO eviction,
oldest dropped from the front), so `history.length ≤ limit` holds after
every append; appending any non-empty message sequence to a fresh store
leaves exactly the last `limit` messages; in particular 51 messages with
limit 50 leave messages 2..51 (length 50) in insertion order. -/
theorem addMessageToThread_fifo_bound (limit : Nat) (hpos : 0 < limit) :
    (∀ (threads : ThreadsMap) (tid : String) (m : Message),
       getThreadHistory (addMessageToThread limit threads tid m) tid
         = (getThreadHistory threads tid ++ [m]).rtake limit) ∧
    (∀ (threads : ThreadsMap) (tid : String) (m : Message),
       (getThreadHistory (addMessageToThread limit threads tid m) tid).length
         ≤ limit) ∧
    (∀ (tid : String) (msgs : List Message), msgs ≠ [] →
       getThreadHistory (appendAll limit [] tid msgs) tid = msgs.rtake limit) ∧
    (getThreadHistory (appendAll 50 [] "thread" (scenarioMessages 51)) "thread"
       = (scenarioMessages 51).drop 1 ∧
     (getThreadHistory (appendAll 50 [] "thread" (scenarioMessages 51))
        "thread").length = 50) := by
  have hstep := addMessageToThread_history limit hpos
  have hbound : ∀ (threads : ThreadsMap) (tid : String) (m : Message),
      (getThreadHistory (addMessageToThread limit threads tid m) tid).length
        ≤ limit := by
    intro threads tid m
    rw [hstep threads tid m]
    exact length_rtake_le limit _
  have hall : ∀ (tid : String) (msgs : List Message), msgs ≠ [] →
      getThreadHistory (appendAll limit [] tid msgs) tid = msgs.rtake limit := by
    intro tid msgs hne
    have := appendAll_history limit hpos tid msgs [] hne
    simpa [getThreadHistory] using this
  refine ⟨hstep, hbound, hall, ?_, ?_⟩
  · have h51 : scenarioMessages 51 ≠ [] := by
      simp [scenarioMessages, List.range_succ]
    have := appendAll_history 50 (by omega) "thread" (scenarioMessages 51) [] h51
    rw [show getThreadHistory [] "thread" = [] from rfl, List.nil_append] at this
    rw [this]
    have hlen : (scenarioMessages 51).length = 51 := by
      simp [scenarioMessages]
    unfold List.rtake
    rw [hlen]
  · have h51 : scenarioMessages 51 ≠ [] := by
      simp [scenarioMessages, List.range_succ]
    have := appendAll_history 50 (by omega) "thread" (scenarioMessages 51) [] h51
    rw [show getThreadHistory [] "thread" = [] from rfl, List.nil_append] at this
    rw [this]
    have hlen : (scenarioMessages 51).length = 51 := by
      simp [scenarioMessages]
    unfold List.rtake
    rw [List.length_drop, hlen]

/-- Witness for C3 at the configured default limit 50: Scenario C's
concrete history bound. -/
theorem addMessageToThread_fifo_bound_witness :
    getThreadHistory (appendAll 50 [] "thread" (scenarioMessages 51)) "thread"
      = (scenarioMessages 51).drop 1 ∧
    (getThreadHistory (appendAll 50 [] "thread" (scenarioMessages 51))
       "thread").length = 50 :=
  (addMessageToThread_fifo_bound 50 (by decide)).2.2.2

/-! ### Poll-pass frame and event lemmas -/

theorem stateMeta_config {a b : ServiceState} (h : stateMeta a = stateMeta b) :
    a.config = b.config := congrArg (fun p => p.1) h

theorem stateMeta_lastMentionId {a b : ServiceState}
    (h : stateMeta a = stateMeta b) : a.lastMentionId = b.lastMentionId :=
  congrArg (fun p => p.2.1) h

theorem stateMeta_currentUserId {a b : ServiceState}
    (h : stateMeta a = stateMeta b) : a.currentUserId = b.currentUserId :=
  congrArg (fun p => p.2.2.1) h

theorem stateMeta_pollTimerArmed {a b : ServiceState}
    (h : stateMeta a = stateMeta b) : a.pollTimerArmed = b.pollTimerArmed :=
  congrArg (fun p => p.2.2.2.2.1) h

theorem stateMeta_listeners {a b : ServiceState}
    (h : stateMeta a = stateMeta b) : a.listeners = b.listeners :=
  congrArg (fun p => p.2.2.2.2.2) h

theorem handleMention_meta (s : ServiceState) (nowMs : Nat) (td : TweetV2) :
    stateMeta (handleMention s nowMs td).1 = stateMeta s := by
  cases h : td.id with
  | none => simp [handleMention, h]
  | some i => by_cases hi : i = "" <;> simp [handleMention, h, hi, stateMeta]

theorem processMentions_meta (nowIso : String) (nowMs : Nat) :
    ∀ (l : List RawTweet) (s : ServiceState),
      stateMeta (processMentions s nowIso nowMs l).1 = stateMeta s := by
  intro l
  induction l with
  | nil => intro s; simp [processMentions]
  | cons t rest ih =>
    intro s
    by_cases hc : t.author_id = s.currentUserId ∧
        s.config.includeOwnTweets = false
    · simpa [processMentions, hc] using ih s
    · simp only [processMentions, if_neg hc]
      exact (ih _).trans (handleMention_meta s nowMs _)

theorem handleMention_events (s : ServiceState) (nowMs : Nat) (td : TweetV2) :
    (handleMention s nowMs td).2
      = (eventOfTweetV2 td).toList.map Event.newMention := by
  cases h : td.id with
  | none => simp [handleMention, eventOfTweetV2, h]
  | some i => by_cases hi : i = "" <;> simp [handleMention, eventOfTweetV2, h, hi]

theorem eventForTweet_ext {a b : ServiceState}
    (h1 : a.currentUserId = b.currentUserId) (h2 : a.config = b.config)
    (nowIso : String) (t : RawTweet) :
    eventForTweet a nowIso t = eventForTweet b nowIso t := by
  unfold eventForTweet
  rw [h1, h2]

theorem processMentions_events (nowIso : String) (nowMs : Nat) :
    ∀ (l : List RawTweet) (s : ServiceState),
      (processMentions s nowIso nowMs l).2
        = (l.filterMap (eventForTweet s nowIso)).map Event.newMention := by
  intro l
  induction l with
  | nil => intro s; simp [processMentions]
  | cons t rest ih =>
    intro s
    by_cases hc : t.author_id = s.currentUserId ∧
        s.config.includeOwnTweets = false
    · simp [processMentions, hc, List.filterMap_cons, eventForTweet, ih s]
    · simp only [processMentions, if_neg hc, List.filterMap_cons]
      rw [handleMention_events,
        ih ((handleMention s nowMs (normalizeTweet t nowIso)).1)]
      have hmeta := handleMention_meta s nowMs (normalizeTweet t nowIso)
      have hfun : eventForTweet
            ((handleMention s nowMs (normalizeTweet t nowIso)).1) nowIso
          = eventForTweet s nowIso :=
        funext (fun u => eventForTweet_ext (stateMeta_currentUserId hmeta)
          (stateMeta_config hmeta) nowIso u)
      rw [hfun]
      have hev : eventForTweet s nowIso t
          = eventOfTweetV2 (normalizeTweet t nowIso) := by
        unfold eventForTweet
        rw [if_neg hc]
      rw [hev]
      cases he : eventOfTweetV2 (normalizeTweet t nowIso) <;> simp

theorem pollWithIdentity_meta (s1 : ServiceState)
    (search : Option String → Except JsError (Option (List RawTweet)))
    (nowIso : String) (nowMs : Nat) :
    (pollWithIdentity s1 search nowIso nowMs).1.config = s1.config ∧
    (pollWithIdentity s1 search nowIso nowMs).1.pollTimerArmed
      = s1.pollTimerArmed ∧
    (pollWithIdentity s1 search nowIso nowMs).1.listeners = s1.listeners := by
  cases hs : search (sinceIdParam s1) with
  | error e => simp [pollWithIdentity, hs]
  | ok o =>
    cases o with
    | none => simp [pollWithIdentity, hs]
    | some tweets =>
      cases tweets with
      | nil => simp [pollWithIdentity, hs]
      | cons t rest =>
        have heq : pollWithIdentity s1 search nowIso nowMs
            = processMentions { s1 with lastMentionId := t.id } nowIso nowMs
                ((t :: rest).reverse) := by
          simp [pollWithIdentity, hs]
        rw [heq]
        have h := processMentions_meta nowIso nowMs ((t :: rest).reverse)
          { s1 with lastMentionId := t.id }
        have h1 := stateMeta_config h
        have h2 := stateMeta_pollTimerArmed h
        have h3 := stateMeta_listeners h
        exact ⟨h1, h2, h3⟩

theorem pollForMentions_timer (s : ServiceState) (w : Except JsError UserInfo)
    (search : Option String → Except JsError (Option (List RawTweet)))
    (nowIso : String) (nowMs : Nat) :
    (pollForMentions s w search nowIso nowMs).1.pollTimerArmed
      = s.pollTimerArmed := by
  by_cases hu : strTruthy s.currentUsername = true
  · have heq : pollForMentions s w search nowIso nowMs
        = pollWithIdentity s search nowIso nowMs := by
      simp [pollForMentions, hu]
    rw [heq]
    exact (pollWithIdentity_meta s search nowIso nowMs).2.1
  · cases w with
    | error e => simp [pollForMentions, hu, Except.map]
    | ok u =>
      have heq : pollForMentions s (Except.ok u) search nowIso nowMs
          = pollWithIdentity (resolveIdentity s u) search nowIso nowMs := by
        simp [pollForMentions, hu, Except.map]
      rw [heq]
      exact (pollWithIdentity_meta (resolveIdentity s u) search nowIso
        nowMs).2.1

/-- **C1.** For every poll pass on a resolved identity: an absent or
empty result list ends the pass with the state — in particular the
cursor — unchanged and no events; a non-empty result list makes the pass
equal to processing the reversed batch from a state whose cursor is
already set to the first (newest) element's id — the cursor update
precedes every per-mention side effect — and the pass's final cursor is
that first element's id. -/
theorem pollForMentions_cursor_spec (s : ServiceState)
    (w : Except JsError UserInfo)
    (search : Option String → Except JsError (Option (List RawTweet)))
    (nowIso : String) (nowMs : Nat)
    (hu : strTruthy s.currentUsername = true) :
    (search (sinceIdParam s) = Except.ok none →
       pollForMentions s w search nowIso nowMs = (s, [])) ∧
    (search (sinceIdParam s) = Except.ok (some []) →
       pollForMentions s w search nowIso nowMs = (s, [])) ∧
    (∀ (t : RawTweet) (rest : List RawTweet),
       search (sinceIdParam s) = Except.ok (some (t :: rest)) →
       pollForMentions s w search nowIso nowMs
         = processMentions { s with lastMentionId := t.id } nowIso nowMs
             ((t :: rest).reverse) ∧
       (pollForMentions s w search nowIso nowMs).1.lastMentionId = t.id) := by
  have hpoll : pollForMentions s w search nowIso nowMs
      = pollWithIdentity s search nowIso nowMs := by
    simp [pollForMentions, hu]
  refine ⟨?_, ?_, ?_⟩
  · intro hs; rw [hpoll]; simp [pollWithIdentity, hs]
  · intro hs; rw [hpoll]; simp [pollWithIdentity, hs]
  · intro t rest hs
    have heq : pollForMentions s w search nowIso nowMs
        = processMentions { s with lastMentionId := t.id } nowIso nowMs
            ((t :: rest).reverse) := by
      rw [hpoll]; simp [pollWithIdentity, hs]
    refine ⟨heq, ?_⟩
    rw [heq]
    have h := processMentions_meta nowIso nowMs ((t :: rest).reverse)
      { s with lastMentionId := t.id }
    have h2 := stateMeta_lastMentionId h
    exact h2

/-- Witness for C1: on Scenario A's batch the cursor ends at `"3"`. -/
theorem pollForMentions_cursor_spec_witness :
    (pollForMentions sampleState (Except.ok ⟨"u1", "bot"⟩) scenarioSearch
        "T" 99).1.lastMentionId = some "3" :=
  ((pollForMentions_cursor_spec sampleState (Except.ok ⟨"u1", "bot"⟩)
      scenarioSearch "T" 99 (by decide)).2.2
    ⟨some "3", none, none, none, none⟩
    [⟨some "2", none, none, none, none⟩, ⟨some "1", none, none, none, none⟩]
    rfl).2

/-- **C2.** Every poll pass processes the retained mentions of the
reversed (hence oldest-first) batch: the published events are exactly the
reversed batch's retained mention events in that order; each retained
mention's thread-store append happens in the very step that publishes its
`newMention` event; and on Scenario A's batch
`[{id:"3"},{id:"2"},{id:"1"}]` the cursor becomes `"3"` and exactly three
`newMention` events fire with tweet ids `"1"`, `"2"`, `"3"` in order. -/
theorem pollForMentions_order_spec :
    (∀ (s : ServiceState) (nowIso : String) (nowMs : Nat)
       (l : List RawTweet),
       (processMentions s nowIso nowMs l).2
         = (l.filterMap (eventForTweet s nowIso)).map Event.newMention) ∧
    (∀ (s : ServiceState) (w : Except JsError UserInfo)
       (search : Option String → Except JsError (Option (List RawTweet)))
       (nowIso : String) (nowMs : Nat) (t : RawTweet)
       (rest : List RawTweet),
       strTruthy s.currentUsername = true →
       search (sinceIdParam s) = Except.ok (some (t :: rest)) →
       (pollForMentions s w search nowIso nowMs).2
         = (((t :: rest).reverse).filterMap (eventForTweet s nowIso)).map
             Event.newMention) ∧
    (∀ (s : ServiceState) (nowMs : Nat) (td : TweetV2) (i : String),
       td.id = some i → i ≠ "" →
       handleMention s nowMs td
         = ({ s with threads := (addMessageToThread
                s.config.threadHistoryLimit s.threads
                (jsOrStr td.conversation_id i)
                ⟨if td.author_id = "" then "unknown" else td.author_id,
                  nowMs, td.text⟩) },
            [Event.newMention
              { message := td.text
              , threadId := jsOrStr td.conversation_id i
              , userId := if td.author_id = "" then "unknown" else td.author_id
              , tweetId := i }])) ∧
    pollForMentions sampleState (Except.ok ⟨"u1", "bot"⟩) scenarioSearch
        "T" 99
      = (scenarioResultState, scenarioEvents) := by
  refine ⟨?_, ?_, ?_, ?_⟩
  · intro s nowIso nowMs l
    exact processMentions_events nowIso nowMs l s
  · intro s w search nowIso nowMs t rest hu hs
    have hpoll : pollForMentions s w search nowIso nowMs
        = processMentions { s with lastMentionId := t.id } nowIso nowMs
            ((t :: rest).reverse) := by
      simp [pollForMentions, hu, pollWithIdentity, hs]
    rw [hpoll, processMentions_events]
    have hfun : eventForTweet { s with lastMentionId := t.id } nowIso
        = eventForTweet s nowIso :=
      funext (fun u => eventForTweet_ext rfl rfl nowIso u)
    rw [hfun]
  · intro s nowMs td i hid hne
    simp [handleMention, hid, hne]
  · decide

/-- Witness for C2: the append-then-publish step at a concrete mention. -/
theorem pollForMentions_order_spec_witness :
    (pollForMentions sampleState (Except.ok ⟨"u1", "bot"⟩) scenarioSearch
        "T" 99).2
      = ((scenarioBatch.reverse).filterMap
          (eventForTweet sampleState "T")).map Event.newMention :=
  pollForMentions_order_spec.2.1 sampleState (Except.ok ⟨"u1", "bot"⟩)
    scenarioSearch "T" 99 ⟨some "3", none, none, none, none⟩
    [⟨some "2", none, none, none, none⟩, ⟨some "1", none, none, none, none⟩]
    (by decide) rfl

/-- **C5.** Every exception raised during a poll pass is contained — the
pass returns normally: a 429-marked error yields exactly one
`rateLimitWarning` event with empty tweet id and message, any other
error exactly one `pollError` event, in both cases with the state — in
particular the cursor — unchanged; and no outcome of a pass ever touches
the poll timer. -/
theorem pollForMentions_error_spec (s : ServiceState)
    (w : Except JsError UserInfo)
    (search : Option String → Except JsError (Option (List RawTweet)))
    (nowIso : String) (nowMs : Nat) (e : JsError) :
    (strTruthy s.currentUsername = true →
     search (sinceIdParam s) = Except.error e →
       (e.status = some 429 →
          pollForMentions s w search nowIso nowMs
            = (s, [Event.rateLimitWarning "" "" e])) ∧
       (e.status ≠ some 429 →
          pollForMentions s w search nowIso nowMs
            = (s, [Event.pollError e]))) ∧
    (strTruthy s.currentUsername = false → w = Except.error e →
       (e.status = some 429 →
          pollForMentions s w search nowIso nowMs
            = (s, [Event.rateLimitWarning "" "" e])) ∧
       (e.status ≠ some 429 →
          pollForMentions s w search nowIso nowMs
            = (s, [Event.pollError e]))) ∧
    (pollForMentions s w search nowIso nowMs).1.pollTimerArmed
      = s.pollTimerArmed := by
  refine ⟨?_, ?_, pollForMentions_timer s w search nowIso nowMs⟩
  · intro hu hs
    have hpoll : pollForMentions s w search nowIso nowMs
        = pollWithIdentity s search nowIso nowMs := by
      simp [pollForMentions, hu]
    constructor <;> intro h429
    · rw [hpoll]; simp [pollWithIdentity, hs, catchEvent, h429]
    · rw [hpoll]; simp [pollWithIdentity, hs, catchEvent, h429]
  · intro hu hw
    subst hw
    constructor <;> intro h429 <;>
      simp [pollForMentions, hu, Except.map, catchEvent, h429]

/-- Witness for C5: a 429-failing search yields one `rateLimitWarning`
with empty tweet id and leaves the state unchanged. -/
theorem pollForMentions_error_spec_witness :
    pollForMentions sampleState (Except.ok ⟨"u1", "bot"⟩)
        (fun _ => Except.error err429) "T" 99
      = (sampleState, [Event.rateLimitWarning "" "" err429]) :=
  ((pollForMentions_error_spec sampleState (Except.ok ⟨"u1", "bot"⟩)
      (fun _ => Except.error err429) "T" 99 err429).1 (by decide) rfl).1 rfl

/-- **C8.** Normalization fallbacks for every raw record: missing text
becomes the empty string, missing `conversation_id` becomes the record's
own id, missing `created_at` becomes the current time, a record with no
id is dropped by `handleMention` (no thread append, no event), and a
retained record with missing `author_id` is emitted with userId
`"unknown"`. -/
theorem normalizeTweet_spec (t : RawTweet) (nowIso : String)
    (s : ServiceState) (nowMs : Nat) :
    (t.text = none → (normalizeTweet t nowIso).text = "") ∧
    (t.conversation_id = none →
       (normalizeTweet t nowIso).conversation_id = t.id) ∧
    (t.created_at = none → (normalizeTweet t nowIso).created_at = nowIso) ∧
    (t.id = none →
       handleMention s nowMs (normalizeTweet t nowIso) = (s, [])) ∧
    (∀ i, t.id = some i → i ≠ "" → t.author_id = none →
       (handleMention s nowMs (normalizeTweet t nowIso)).2
         = [Event.newMention
             { message := jsOrStr t.text ""
             , threadId := jsOrStr (jsOrOpt t.conversation_id t.id) i
             , userId := "unknown"
             , tweetId := i }]) := by
  refine ⟨?_, ?_, ?_, ?_, ?_⟩
  · intro h; simp [normalizeTweet, jsOrStr, h]
  · intro h; simp [normalizeTweet, jsOrOpt, h]
  · intro h; simp [normalizeTweet, jsOrStr, h]
  · intro h; simp [handleMention, normalizeTweet, h]
  · intro i hid hne hauth
    simp [handleMention, normalizeTweet, hid, hne, jsOrStr, hauth]

/-- Witness for C8: a record with only an id is normalized with all
fallbacks and emitted with userId `"unknown"`. -/
theorem normalizeTweet_spec_witness :
    (handleMention sampleState 42
        (normalizeTweet ⟨some "9", none, none, none, none⟩ "NOW")).2
      = [Event.newMention ⟨"", "9", "unknown", "9"⟩] :=
  (normalizeTweet_spec ⟨some "9", none, none, none, none⟩ "NOW"
      sampleState 42).2.2.2.2 "9" rfl (by decide) rfl

/-- **C4 counterexample.** A service constructed with the sentinel seed
`sinceId = "0"` that has processed no mentions does not omit the
`since_id` constraint (as the claim asserts): the constructor copies
`"0"` into the cursor, a truthy string, so the first search is issued
with `since_id = "0"`. -/
theorem sinceIdParam_zero_counterexample :
    (mkService ⟨some "0", none, none, false⟩).lastMentionId = some "0" ∧
    sinceIdParam (mkService ⟨some "0", none, none, false⟩) = some "0" := by
  decide

/-- **C4 (amended).** The `since_id` constraint is chosen by the stated
precedence — tracked cursor when truthy, else configured seed when truthy
and not the sentinel `"0"`, else omitted — but the constructor seeds the
cursor with the configured `sinceId` verbatim, so a freshly constructed
service with any truthy seed (the sentinel `"0"` included) issues its
first search with that seed as `since_id`; the seed fallback with its
`"0"` filter applies only when the cursor is falsy. -/
theorem sinceIdParam_spec (c : TwitterServiceConfig) (s : ServiceState) :
    ((mkService c).lastMentionId = c.sinceId) ∧
    (strTruthy s.lastMentionId = true → sinceIdParam s = s.lastMentionId) ∧
    (strTruthy s.lastMentionId = false →
       strTruthy s.config.sinceId = true → s.config.sinceId ≠ some "0" →
       sinceIdParam s = s.config.sinceId) ∧
    (strTruthy s.lastMentionId = false →
       (strTruthy s.config.sinceId = false ∨ s.config.sinceId = some "0") →
       sinceIdParam s = none) ∧
    (∀ v, c.sinceId = some v → v ≠ "" →
       sinceIdParam (mkService c) = some v) := by
  refine ⟨rfl, ?_, ?_, ?_, ?_⟩
  · intro h; simp [sinceIdParam, h]
  · intro h1 h2 h3; simp [sinceIdParam, h1, h2, h3]
  · intro h1 h2
    rcases h2 with h2 | h2
    · simp [sinceIdParam, h1, h2]
    · simp [sinceIdParam, h1, h2]
  · intro v hv hne
    simp [sinceIdParam, mkService, hv, strTruthy, hne]

/-- Witness for the amended C4: a truthy non-sentinel seed becomes the
first `since_id` through the cursor. -/
theorem sinceIdParam_spec_witness :
    sinceIdParam (mkService ⟨some "42", none, none, false⟩) = some "42" :=
  (sinceIdParam_spec ⟨some "42", none, none, false⟩
      (mkService ⟨some "42", none, none, false⟩)).2.2.2.2 "42" rfl
    (by decide)

/-- **C6.** `replyToTweet`: a 429-marked failure publishes exactly one
`rateLimitWarning` carrying the original tweet id and message and
re-raises the original error; any other failure publishes exactly one
`tweetError` and re-raises; success returns the platform response
unmodified with no events. -/
theorem replyToTweet_spec {α : Type} (tweetId message : String)
    (apiResult : Except JsError α) (e : JsError) (v : α) :
    (apiResult = Except.ok v →
       replyToTweet tweetId message apiResult = (Except.ok v, [])) ∧
    (apiResult = Except.error e → e.status = some 429 →
       replyToTweet tweetId message apiResult
         = (Except.error e, [Event.rateLimitWarning tweetId message e])) ∧
    (apiResult = Except.error e → e.status ≠ some 429 →
       replyToTweet tweetId message apiResult
         = (Except.error e, [Event.tweetError (some tweetId) message e])) := by
  refine ⟨?_, ?_, ?_⟩
  · intro h; subst h; rfl
  · intro h h429; subst h; simp [replyToTweet, h429]
  · intro h h429; subst h; simp [replyToTweet, h429]

/-- Witness for C6: spec Scenario D at a concrete rate-limited write. -/
theorem replyToTweet_spec_witness :
    replyToTweet "tid1" "hello" (Except.error err429 : Except JsError Nat)
      = (Except.error err429,
         [Event.rateLimitWarning "tid1" "hello" err429]) :=
  (replyToTweet_spec "tid1" "hello" (Except.error err429) err429 0).2.1
    rfl rfl

/-- **C7 counterexample.** The claim says `searchTweets` and
`getMyProfile` publish a `rateLimitWarning` on a rate-limit-marked
failure the way `replyToTweet` does; in the code both merely log and
re-raise: on a concrete 429-marked failure they publish no event at
all, while `replyToTweet` publishes the warning. -/
theorem writeOps_policy_counterexample :
    (searchTweets (α := Nat) "q" (Except.error err429)).2 = [] ∧
    (getMyProfile (α := Nat) (Except.error err429)).2 = [] ∧
    (replyToTweet (α := Nat) "t" "m" (Except.error err429)).2
      = [Event.rateLimitWarning "t" "m" err429] := by
  decide

/-- **C7 (amended).** `tweet(text)` applies the same rate-limit/error
classification and event emission as `replyToTweet` (with an empty tweet
id in its rate-limit event and no tweet id in its `tweetError`),
re-raising in both failure cases; `searchTweets(query)` and
`getMyProfile()` do not follow that policy: they publish no event on any
failure, 429-marked ones included, and re-raise the error unchanged. -/
theorem writeOps_policy_spec {α : Type} (text q : String)
    (apiResult : Except JsError α) (e : JsError) (v : α) :
    (apiResult = Except.ok v → tweet text apiResult = (Except.ok v, [])) ∧
    (apiResult = Except.error e → e.status = some 429 →
       tweet text apiResult
         = (Except.error e, [Event.rateLimitWarning "" text e])) ∧
    (apiResult = Except.error e → e.status ≠ some 429 →
       tweet text apiResult
         = (Except.error e, [Event.tweetError none text e])) ∧
    (searchTweets q apiResult = (apiResult, [])) ∧
    (getMyProfile apiResult = (apiResult, [])) := by
  refine ⟨?_, ?_, ?_, rfl, rfl⟩
  · intro h; subst h; rfl
  · intro h h429; subst h; simp [tweet, h429]
  · intro h h429; subst h; simp [tweet, h429]

/-- Witness for the amended C7: `tweet` on a rate-limited failure. -/
theorem writeOps_policy_spec_witness :
    tweet "hi" (Except.error err429 : Except JsError Nat)
      = (Except.error err429, [Event.rateLimitWarning "" "hi" err429]) :=
  (writeOps_policy_spec "hi" "q" (Except.error err429) err429 0).2.1 rfl rfl

/-- **C10.** `stop()` cancels the timer, removes all subscribers and
clears all thread histories, but leaves the cursor — as well as config
and cached identity — unchanged; hence the `since_id` choice is
unaffected by `stop()`, `start()` routes its first poll pass through the
stopped state with only identity re-resolved, and when the pre-stop
cursor is truthy that first pass constrains its search with the pre-stop
cursor value rather than the configured seed. -/
theorem stop_frame_spec (s : ServiceState) (u : UserInfo) :
    (stop s).lastMentionId = s.lastMentionId ∧
    (stop s).pollTimerArmed = false ∧
    (stop s).listeners = [] ∧
    (stop s).threads = [] ∧
    (stop s).config = s.config ∧
    (stop s).currentUserId = s.currentUserId ∧
    (stop s).currentUsername = s.currentUsername ∧
    sinceIdParam (stop s) = sinceIdParam s ∧
    (∀ search nowIso nowMs,
       start (stop s) (Except.ok u) search nowIso nowMs
         = Except.ok
             (({ (pollForMentions (resolveIdentity (stop s) u)
                   (Except.ok u) search nowIso nowMs).1 with
                 pollTimerArmed := true }),
              (pollForMentions (resolveIdentity (stop s) u)
                (Except.ok u) search nowIso nowMs).2)) ∧
    (strTruthy s.lastMentionId = true →
       sinceIdParam (resolveIdentity (stop s) u) = s.lastMentionId) := by
  refine ⟨rfl, rfl, rfl, rfl, rfl, rfl, rfl, rfl, fun _ _ _ => rfl, ?_⟩
  intro h
  simp [sinceIdParam, stop, resolveIdentity, h]

/-- Witness for C10: a pre-stop cursor survives `stop()` and is the
`since_id` of the first post-restart poll. -/
theorem stop_frame_spec_witness :
    sinceIdParam (resolveIdentity
        (stop { sampleState with lastMentionId := some "77" })
        ⟨"u1", "bot"⟩) = some "77" :=
  (stop_frame_spec { sampleState with lastMentionId := some "77" }
      ⟨"u1", "bot"⟩).2.2.2.2.2.2.2.2.2 (by decide)

/-- If the first `k` attempts are 429-marked errors and attempt `k` is
terminal (a success or a non-429 error), the loop performs exactly `k`
retries with the documented waits and returns attempt `k`'s outcome
unchanged. Stated for an arbitrary starting retry count `r`. -/
theorem retryAux_terminal {α : Type} (op : Nat → Except JsError α)
    (nowAt : Nat → Int) (baseDelay : Nat) (errs : Nat → JsError) :
    ∀ (k r m : Nat), k ≤ m →
      (∀ n, n < k → op (r + n) = Except.error (errs (r + n)) ∧
        (errs (r + n)).status = some 429) →
      (∀ e, op (r + k) = Except.error e → e.status ≠ some 429) →
      retryAux op nowAt baseDelay r m
        = (op (r + k), (List.range k).map
            (fun j => rateLimitWaitMs (errs (r + j)) (nowAt (r + j))
              baseDelay (r + j))) := by
  intro k
  induction k with
  | zero =>
    intro r m _ _ hterm
    rw [retryAux]
    cases hop : op r with
    | ok v => simp [hop]
    | error e =>
      have he : e.status ≠ some 429 := hterm e (by simpa using hop)
      simp [hop, he]
  | succ k ih =>
    intro r m hkm hpre hterm
    obtain ⟨m', rfl⟩ : ∃ m', m = m' + 1 := ⟨m - 1, by omega⟩
    have h0 := hpre 0 (Nat.succ_pos k)
    simp only [Nat.add_zero] at h0
    rw [retryAux]
    rw [h0.1]
    simp only [h0.2, if_pos rfl]
    have hrec := ih (r + 1) m' (by omega)
      (fun n hn => by
        have := hpre (n + 1) (by omega)
        simpa [Nat.add_assoc, Nat.add_comm 1 n] using this)
      (fun e he => hterm e (by
        have harith : r + 1 + k = r + (k + 1) := by omega
        rw [harith] at he
        exact he))
    rw [hrec]
    have harith : r + 1 + k = r + (k + 1) := by omega
    rw [harith]
    refine Prod.ext rfl ?_
    simp only [List.range_succ_eq_map, List.map_cons, List.map_map,
      Nat.add_zero]
    refine congrArg₂ List.cons rfl ?_
    refine List.map_congr_left ?_
    intro j _
    simp only [Function.comp]
    have h1 : r + 1 + j = r + (j + 1) := by omega
    rw [h1]

/-- **C9.** `retryWithBackoff`: an error is retried only when it is
429-marked and fewer than `maxRetries` retries have occurred; the wait
before retry `n` is milliseconds-until-reset plus a fixed 5000 ms margin
when the platform supplies a reset timestamp and `baseDelay * 2 ^ n`
otherwise; a success, any non-429 error, or an exhausted retry budget
ends the loop, returning the terminal outcome — in particular the
original error object — unchanged. -/
theorem retryWithBackoff_spec {α : Type} (op : Nat → Except JsError α)
    (nowAt : Nat → Int) (maxRetries baseDelay : Nat)
    (errs : Nat → JsError) :
    (∀ k, k ≤ maxRetries →
       (∀ n, n < k → op n = Except.error (errs n) ∧
         (errs n).status = some 429) →
       (∀ e, op k = Except.error e → e.status ≠ some 429) →
       retryWithBackoff op nowAt maxRetries baseDelay
         = (op k, (List.range k).map
             (fun j => rateLimitWaitMs (errs j) (nowAt j) baseDelay j))) ∧
    ((∀ n, op n = Except.error (errs n)) →
     (∀ n, (errs n).status = some 429) →
       retryWithBackoff op nowAt maxRetries baseDelay
         = (Except.error (errs maxRetries), (List.range maxRetries).map
             (fun j => rateLimitWaitMs (errs j) (nowAt j) baseDelay j))) ∧
    (∀ e n, e.resetTime = none →
       rateLimitWaitMs e (nowAt n) baseDelay n
         = ((baseDelay * 2 ^ n : Nat) : Int)) ∧
    (∀ e res n, e.resetTime = some res →
       rateLimitWaitMs e (nowAt n) baseDelay n
         = res * 1000 - nowAt n + 5000) := by
  refine ⟨?_, ?_, ?_, ?_⟩
  · intro k hk hpre hterm
    have h := retryAux_terminal op nowAt baseDelay errs k 0 maxRetries hk
      (fun n hn => by simpa using hpre n hn)
      (fun e he => hterm e (by simpa using he))
    simpa using h
  · intro hall h429
    have hmain : ∀ (m r : Nat),
        retryAux op nowAt baseDelay r m
          = (Except.error (errs (r + m)), (List.range m).map
              (fun j => rateLimitWaitMs (errs (r + j)) (nowAt (r + j))
                baseDelay (r + j))) := by
      intro m
      induction m with
      | zero =>
        intro r
        rw [retryAux]
        simp [hall r, h429 r]
      | succ m ih =>
        intro r
        rw [retryAux]
        rw [hall r]
        simp only [h429 r, if_pos rfl]
        rw [ih (r + 1)]
        have harith : r + 1 + m = r + (m + 1) := by omega
        rw [harith]
        refine Prod.ext rfl ?_
        simp only [List.range_succ_eq_map, List.map_cons, List.map_map,
          Nat.add_zero]
        refine congrArg₂ List.cons rfl ?_
        refine List.map_congr_left ?_
        intro j _
        simp only [Function.comp]
        have h1 : r + 1 + j = r + (j + 1) := by omega
        rw [h1]
    have h := hmain maxRetries 0
    simpa using h
  · intro e n h
    simp [rateLimitWaitMs, h]
  · intro e res n h
    simp [rateLimitWaitMs, h]

/-- Witness for C9: five exhausting 429s with no reset header wait
5000·2^n ms before each retry and re-raise the original error. -/
theorem retryWithBackoff_spec_witness :
    retryWithBackoff (fun _ => (Except.error err429 : Except JsError Nat))
        (fun _ => 0) 5 5000
      = (Except.error err429, [5000, 10000, 20000, 40000, 80000]) :=
  ((retryWithBackoff_spec (fun _ => (Except.error err429 : Except JsError Nat))
      (fun _ => 0) 5 5000 (fun _ => err429)).2.1 (fun _ => rfl)
    (fun _ => rfl)).trans (by rfl)
